import Mathlib

/-!
Verification of the artist-timeline derivation pipeline (src/server.js).

This file gives a shallow embedding of the algorithmic core of the server:
event classification (isSale / isMint), field probing over loosely-typed
records, the sliding-window three-month peak, milestone derivation in
contract-set mode (buildMilestones) and wallet mode (buildWalletMilestones),
and the paginated retrieval loops — and proves or refutes the specification
claims about them.

Modeling conventions (each definition is annotated with the source lines it
embeds):
* A JavaScript value occurring in a probed record field is modeled by `JVal`,
  carrying exactly the three projections the code uses: its truthiness, its
  numeric coercion `Number(v)` (`none` when not a finite number), and its
  string coercion `String(v)`.  USD amounts are modeled as integers: no claim
  depends on fractional arithmetic.
* An absent field, a field holding `null`, and a field holding `undefined`
  are all modeled as `none` (the code only distinguishes them via `!= null`,
  which they all fail).
* Timestamp-bearing fields are modeled as `Option (Option Int)`:
  `none` = absent, `some none` = present but unparseable by `new Date`,
  `some (some t)` = present and parsing to the instant `t` (ms since epoch).
* Date objects are represented by their instant; milestone `date` carries the
  instant denoted by the ISO string in the response (`new Date(iso)` is the
  inverse of `toISOString`, so sorting by re-parsed dates is sorting by
  instant).  Calendar-day bucketing keys (`toISOString().slice(0, 10)`) are
  modeled by the epoch day number, which is in bijection with the rendered
  date string for the four-digit-year range the server handles.
* JavaScript's `Array.prototype.sort` is stable (ES2019); it is modeled by
  `List.insertionSort`, which is stable and kernel-computable.
* Milestone `detail` strings (display only, built with `Intl.NumberFormat`
  and `toLocaleDateString`) are presentation and are not modeled; milestones
  keep `id`, `date`, `title`, `kind`.
* The fetch layer is modeled by oracle functions supplied as parameters:
  e.g. a page oracle `Option String → rows × cursor` for the pagination
  loops, and `Except`-valued branch results for the concurrent fan-out.
-/

namespace Timeline

/-- The three projections of a JavaScript value that the server ever uses on
a probed record field: truthiness, `Number(v)` (`none` when `NaN`/infinite),
and `String(v)`. -/
structure JVal where
  truthy : Bool
  num : Option Int
  str : String
deriving DecidableEq

/-- A JavaScript number `n` as a `JVal` (truthy iff nonzero). -/
def jnum (n : Int) : JVal := ⟨n != 0, some n, toString n⟩

/-- A JavaScript string as a `JVal` whose `Number` coercion is not finite
(e.g. a transaction hash: truthy iff nonempty, `Number` gives `NaN`). -/
def jstr (s : String) : JVal := ⟨s ≠ "", none, s⟩

/-- JavaScript `a || b` on two possibly-absent values (`none` = absent /
`null` / `undefined`, which are falsy). -/
def jsOr (a b : Option JVal) : Option JVal :=
  match a with
  | some v => if v.truthy then some v else b
  | none => b

/-- JavaScript `a || b` on two possibly-absent string values (the empty
string is the only falsy string). -/
def jsOrStr (a b : Option String) : Option String :=
  match a with
  | some s => if s = "" then b else some s
  | none => b

/-- Models `String.prototype.includes`: `pat` occurs as a contiguous substring. -/
def strContains (s pat : String) : Bool :=
  s.data.tails.any (fun t => pat.data.isPrefixOf t)

/-- ASCII lower-casing of one character (the type labels and addresses the
server probes are ASCII; models `toLowerCase`). -/
def charLower (c : Char) : Char :=
  if 'A' ≤ c ∧ c ≤ 'Z' then Char.ofNat (c.toNat + 32) else c

/-- Models `String.prototype.toLowerCase`. -/
def lowerStr (s : String) : String :=
  String.mk (s.data.map charLower)

/-- Models `String.prototype.trim`. -/
def trimStr (s : String) : String :=
  String.mk (((s.data.dropWhile Char.isWhitespace).reverse.dropWhile Char.isWhitespace).reverse)

/-- One raw activity record (server.js probes these keys; `type_f` models the
JSON key `type`, `hash` the key `hash`, `tx_activity_types` the synthetic key
`_tx_activity_types` added by the wallet fetch; `asset_*` fields model the
nested `asset` object's members). -/
structure RawEvent where
  block_timestamp : Option (Option Int) := none
  timestamp : Option (Option Int) := none
  created_at : Option (Option Int) := none
  activity_timestamp : Option (Option Int) := none
  event_timestamp : Option (Option Int) := none
  activity_type : Option String := none
  type_f : Option String := none
  event_type : Option String := none
  transaction_type : Option String := none
  operation : Option String := none
  usd_value : Option JVal := none
  amount_usd : Option JVal := none
  usd_amount : Option JVal := none
  price_usd : Option JVal := none
  sale_usd : Option JVal := none
  total_usd : Option JVal := none
  currency_price_usd : Option JVal := none
  price_usd_nested : Option JVal := none
  value_usd_nested : Option JVal := none
  token_id : Option JVal := none
  tokenId : Option JVal := none
  nft_id : Option JVal := none
  asset_token_id : Option JVal := none
  contract_address : Option String := none
  token_address : Option String := none
  collection_address : Option String := none
  nft_address : Option String := none
  asset_token_address : Option String := none
  from_address : Option String := none
  seller_address : Option String := none
  maker : Option String := none
  to_address : Option String := none
  buyer_address : Option String := none
  taker : Option String := none
  asset_from_address : Option String := none
  asset_to_address : Option String := none
  sender : Option String := none
  recipient : Option String := none
  transaction_hash : Option JVal := none
  tx_hash : Option JVal := none
  hash : Option JVal := none
  tx_activity_types : Option (List String) := none
deriving DecidableEq

/-- server.js lines 75-85: `eventTimestamp` — `parseDate(firstPresent(event,
[block_timestamp, timestamp, created_at, activity_timestamp,
event_timestamp]))`. -/
def eventTimestamp (e : RawEvent) : Option Int :=
  (e.block_timestamp <|> e.timestamp <|> e.created_at <|> e.activity_timestamp <|>
    e.event_timestamp).bind id

/-- server.js lines 87-102: `usdValue`.  `raw` is the first present direct
field; `Number(raw)` is `0` when `raw` is `null` (no direct field present),
which is finite — only when a direct field is present but not numeric does
the nested `currency_price.usd || price.usd || value.usd` chain get
consulted. -/
def usdValue (e : RawEvent) : Option Int :=
  let raw := e.usd_value <|> e.amount_usd <|> e.usd_amount <|> e.price_usd <|>
    e.sale_usd <|> e.total_usd
  let asNum : Option Int :=
    match raw with
    | none => some 0
    | some v => v.num
  match asNum with
  | some n => some n
  | none =>
    match jsOr (jsOr e.currency_price_usd e.price_usd_nested) e.value_usd_nested with
    | none => none
    | some v => v.num

/-- server.js lines 104-107 and 116-119: the lower-cased type label,
`String(firstPresent(event, [activity_type, type, event_type,
transaction_type, operation]) || "").toLowerCase()`. -/
def typeLabel (e : RawEvent) : String :=
  lowerStr ((e.activity_type <|> e.type_f <|> e.event_type <|> e.transaction_type <|>
    e.operation).getD "")

/-- server.js lines 104-114: `isSale`. -/
def isSale (e : RawEvent) : Bool :=
  let t := typeLabel e
  if strContains t "sale" then true
  else if strContains t "trade" then true
  else if strContains t "listing" then false
  else if strContains t "mint" then false
  else (usdValue e).isSome

/-- The token-id resolution shared by `isMint`, `tokenLabel` and
`tokenIdFromEvent` (server.js lines 122, 127-128, 145):
`firstPresent(event, [token_id, tokenId, nft_id]) || event?.asset?.token_id`. -/
def resolvedTokenId (e : RawEvent) : Option JVal :=
  jsOr (e.token_id <|> e.tokenId <|> e.nft_id) e.asset_token_id

/-- server.js lines 116-124: `isMint`. -/
def isMint (e : RawEvent) : Bool :=
  let t := typeLabel e
  if !strContains t "mint" then false
  else (resolvedTokenId e).isSome || strContains t "nft"

/-- server.js lines 52-54: the `/^0x[a-f0-9]{40}$/` test. -/
def isHexAddr (s : String) : Bool :=
  match s.data with
  | '0' :: 'x' :: rest => rest.length == 40 && rest.all (fun c => c.isDigit || ('a' ≤ c && c ≤ 'f'))
  | _ => false

/-- server.js lines 56-60: `normalizeAddress` (`!value` is `none` or the
empty string here; other values are trimmed, lower-cased and tested). -/
def normalizeAddress (v : Option String) : Option String :=
  match v with
  | none => none
  | some s =>
    if s = "" then none
    else
      let lowered := lowerStr (trimStr s)
      if isHexAddr lowered then some lowered else none

/-- server.js lines 137-142: `contractAddressFromEvent`. -/
def contractAddressFromEvent (e : RawEvent) : Option String :=
  normalizeAddress (jsOrStr
    (e.contract_address <|> e.token_address <|> e.collection_address <|> e.nft_address)
    e.asset_token_address)

/-- server.js lines 144-148: `tokenIdFromEvent` (`String(id)` on the resolved
id). -/
def tokenIdFromEvent (e : RawEvent) : Option String :=
  (resolvedTokenId e).map (fun v => v.str)

/-- server.js lines 150-155: `tokenKeyFromEvent`. -/
def tokenKeyFromEvent (e : RawEvent) : Option String :=
  match contractAddressFromEvent e, tokenIdFromEvent e with
  | some c, some t => some (c ++ ":" ++ t)
  | _, _ => none

/-- server.js lines 157-165: `addressFromEvent` with the shared asset /
sender / recipient fallback chain. -/
def addressFromEvent (e : RawEvent) (primary : Option String) : Option String :=
  normalizeAddress (jsOrStr (jsOrStr (jsOrStr (jsOrStr primary e.asset_from_address)
    e.asset_to_address) e.sender) e.recipient)

/-- Models `addressFromEvent(event, ["from_address", "seller_address", "maker"])`
(server.js lines 551, 621). -/
def fromAddressOf (e : RawEvent) : Option String :=
  addressFromEvent e (e.from_address <|> e.seller_address <|> e.maker)

/-- Models `addressFromEvent(event, ["to_address", "buyer_address", "taker"])`
(server.js line 622). -/
def toAddressOf (e : RawEvent) : Option String :=
  addressFromEvent e (e.to_address <|> e.buyer_address <|> e.taker)

/-- server.js line 37: `THREE_MONTHS_MS = 90 * 24 * 60 * 60 * 1000`. -/
def THREE_MONTHS_MS : Int := 90 * 24 * 60 * 60 * 1000

/-- server.js lines 407-409: the inner `while` of `buildThreeMonthPeak`,
advancing `left` while `sorted[right]._ts - sorted[left]._ts >
THREE_MONTHS_MS`.  The source loop always halts by `left = right` (the
difference is then `0`, not above the positive window width); the explicit
`l < r` guard and the `r - l` fuel make that termination structural without
changing the result. -/
def advanceLeft (ts : List Int) (r : Nat) : Nat → Nat → Nat
  | 0, l => l
  | fuel + 1, l =>
    if l < r ∧ THREE_MONTHS_MS < ts.getD r 0 - ts.getD l 0 then
      advanceLeft ts r fuel (l + 1)
    else l

/-- The `best` record of `buildThreeMonthPeak` (server.js line 404): `stop`
models the JS field `end`. -/
structure Best where
  count : Nat
  start : Option Int
  stop : Option Int
deriving DecidableEq

/-- server.js lines 406-419: the `for (right ...)` scan of
`buildThreeMonthPeak`, with fuel `ts.length - r` made explicit. -/
def peakLoop (ts : List Int) : Nat → Nat → Nat → Best → Best
  | 0, _, _, best => best
  | fuel + 1, r, l, best =>
    if r < ts.length then
      let l2 := advanceLeft ts r (r - l) l
      let c := r - l2 + 1
      let best2 :=
        if best.count < c then Best.mk c (some (ts.getD l2 0)) (some (ts.getD r 0)) else best
      peakLoop ts fuel (r + 1) l2 best2
    else best

/-- server.js lines 398-401: the timestamps of the sale events, dropping
records without a parseable timestamp and sorting ascending (`_ts` is all
the scan ever reads from the sorted records, so the sorted list is projected
to it). -/
def sortedSaleTimestamps (sales : List RawEvent) : List Int :=
  List.insertionSort (fun a b => a ≤ b) (sales.filterMap eventTimestamp)

/-- server.js lines 395-422: `buildThreeMonthPeak`. -/
def buildThreeMonthPeak (sales : List RawEvent) : Option Best :=
  if sales.isEmpty then none
  else
    let sorted := sortedSaleTimestamps sales
    let best := peakLoop sorted sorted.length 0 0 (Best.mk 0 none none)
    if best.count = 0 then none else some best

/-- The sorted-timestamp list is non-decreasing under `getD` indexing. -/
def SortedTs (ts : List Int) : Prop :=
  ∀ i j, i ≤ j → j < ts.length → ts.getD i 0 ≤ ts.getD j 0

theorem advanceLeft_le (ts : List Int) (r : Nat) :
    ∀ fuel l, l ≤ advanceLeft ts r fuel l := by
  intro fuel
  induction fuel with
  | zero => intro l; exact Nat.le_refl l
  | succ fuel ih =>
    intro l
    unfold advanceLeft
    split
    · exact Nat.le_trans (Nat.le_succ l) (ih (l + 1))
    · exact Nat.le_refl l

theorem advanceLeft_le_r (ts : List Int) (r : Nat) :
    ∀ fuel l, l ≤ r → advanceLeft ts r fuel l ≤ r := by
  intro fuel
  induction fuel with
  | zero => intro l h; exact h
  | succ fuel ih =>
    intro l h
    unfold advanceLeft
    split
    · next hc => exact ih (l + 1) hc.1
    · exact h

theorem advanceLeft_exit (ts : List Int) (r : Nat) :
    ∀ fuel l, r ≤ l + fuel → l ≤ r →
      ts.getD r 0 - ts.getD (advanceLeft ts r fuel l) 0 ≤ THREE_MONTHS_MS := by
  intro fuel
  induction fuel with
  | zero =>
    intro l hfuel hlr
    have : l = r := Nat.le_antisymm hlr (by omega)
    subst this
    simp only [advanceLeft]
    have : ts.getD l 0 - ts.getD l 0 = 0 := by omega
    rw [this]
    decide
  | succ fuel ih =>
    intro l hfuel hlr
    unfold advanceLeft
    split
    · next hc => exact ih (l + 1) (by omega) hc.1
    · next hc =>
      rcases Nat.lt_or_ge l r with hlt | hge
      · by_contra hgt
        exact hc ⟨hlt, by omega⟩
      · have : l = r := Nat.le_antisymm hlr hge
        subst this
        have : ts.getD l 0 - ts.getD l 0 = 0 := by omega
        rw [this]
        decide

theorem advanceLeft_skipped (ts : List Int) (r : Nat) :
    ∀ fuel l i, l ≤ i → i < advanceLeft ts r fuel l →
      THREE_MONTHS_MS < ts.getD r 0 - ts.getD i 0 := by
  intro fuel
  induction fuel with
  | zero => intro l i hli hi; simp only [advanceLeft] at hi; omega
  | succ fuel ih =>
    intro l i hli hi
    unfold advanceLeft at hi
    split at hi
    · next hc =>
      rcases Nat.lt_or_ge i (l + 1) with hil | hil
      · have : i = l := by omega
        subst this
        exact hc.2
      · exact ih (l + 1) i hil hi
    · omega

theorem peakLoop_count_ge (ts : List Int) :
    ∀ fuel r l best, best.count ≤ (peakLoop ts fuel r l best).count := by
  intro fuel
  induction fuel with
  | zero => intro r l best; exact Nat.le_refl _
  | succ fuel ih =>
    intro r l best
    unfold peakLoop
    split
    · refine Nat.le_trans ?_ (ih (r + 1) _ _)
      split
      · next hlt => exact Nat.le_of_lt hlt
      · exact Nat.le_refl _
    · exact Nat.le_refl _

theorem peakLoop_count_le (ts : List Int) :
    ∀ fuel r l best, l ≤ r → best.count ≤ ts.length →
      (peakLoop ts fuel r l best).count ≤ ts.length := by
  intro fuel
  induction fuel with
  | zero => intro r l best _ hb; exact hb
  | succ fuel ih =>
    intro r l best hlr hb
    unfold peakLoop
    split
    · next hr =>
      refine ih (r + 1) _ _ (Nat.le_succ_of_le (advanceLeft_le_r ts r (r - l) l hlr)) ?_
      split
      · next =>
        have hl2 : advanceLeft ts r (r - l) l ≤ r := advanceLeft_le_r ts r (r - l) l hlr
        simp only
        omega
      · exact hb
    · exact hb

theorem peakLoop_maximal (ts : List Int) (hs : SortedTs ts) :
    ∀ fuel r l best,
      ts.length ≤ r + fuel →
      l ≤ r →
      (∀ i, i < l → r < ts.length → THREE_MONTHS_MS < ts.getD r 0 - ts.getD i 0) →
      (∀ a b, a ≤ b → b < r → b < ts.length →
        ts.getD b 0 - ts.getD a 0 ≤ THREE_MONTHS_MS → b + 1 ≤ best.count + a) →
      ∀ a b, a ≤ b → b < ts.length →
        ts.getD b 0 - ts.getD a 0 ≤ THREE_MONTHS_MS →
        b + 1 ≤ (peakLoop ts fuel r l best).count + a := by
  intro fuel
  induction fuel with
  | zero =>
    intro r l best hfuel hlr hinv hbest a b hab hb hdiff
    simp only [peakLoop]
    exact hbest a b hab (by omega) hb hdiff
  | succ fuel ih =>
    intro r l best hfuel hlr hinv hbest a b hab hb hdiff
    unfold peakLoop
    split
    · next hr =>
      set l2 := advanceLeft ts r (r - l) l with hl2def
      have hl2r : l2 ≤ r := advanceLeft_le_r ts r (r - l) l hlr
      have hll2 : l ≤ l2 := advanceLeft_le ts r (r - l) l
      -- every index below l2 is invalid as a left end for the window ending at r
      have hbelow : ∀ i, i < l2 → THREE_MONTHS_MS < ts.getD r 0 - ts.getD i 0 := by
        intro i hi
        rcases Nat.lt_or_ge i l with hil | hil
        · exact hinv i hil hr
        · exact advanceLeft_skipped ts r (r - l) l i hil hi
      have hinv2 : ∀ i, i < l2 → r + 1 < ts.length →
          THREE_MONTHS_MS < ts.getD (r + 1) 0 - ts.getD i 0 := by
        intro i hi hr1
        have h1 := hbelow i hi
        have h2 : ts.getD r 0 ≤ ts.getD (r + 1) 0 := hs r (r + 1) (Nat.le_succ r) hr1
        omega
      have hbest2 : ∀ a b, a ≤ b → b < r + 1 → b < ts.length →
          ts.getD b 0 - ts.getD a 0 ≤ THREE_MONTHS_MS →
          b + 1 ≤ (if best.count < r - l2 + 1 then
            Best.mk (r - l2 + 1) (some (ts.getD l2 0)) (some (ts.getD r 0)) else best).count + a := by
        intro a b hab hbr hblen hd
        have hcnt : (if best.count < r - l2 + 1 then
            Best.mk (r - l2 + 1) (some (ts.getD l2 0)) (some (ts.getD r 0)) else best).count
            = max best.count (r - l2 + 1) := by
          split
          · next h => simp only; omega
          · next h => omega
        rw [hcnt]
        rcases Nat.lt_or_ge b r with hbr2 | hbr2
        · have := hbest a b hab hbr2 hblen hd
          omega
        · have hbeq : b = r := by omega
          subst hbeq
          -- a is a valid left end for the window ending at r, so l2 ≤ a
          have hal2 : l2 ≤ a := by
            by_contra hcon
            have := hbelow a (by omega)
            omega
          omega
      exact ih (r + 1) l2 _ (by omega) (by omega) hinv2 hbest2 a b hab hb hdiff
    · next hr =>
      exact hbest a b hab (by omega) hb hdiff

theorem sortedTs_sortedSaleTimestamps (sales : List RawEvent) :
    SortedTs (sortedSaleTimestamps sales) := by
  intro i j hij hj
  rcases Nat.eq_or_lt_of_le hij with heq | hlt
  · subst heq; exact Int.le_refl _
  · have hpw : List.Sorted (fun a b : Int => a ≤ b) (sortedSaleTimestamps sales) :=
      List.sorted_insertionSort (fun a b : Int => a ≤ b) (sales.filterMap eventTimestamp)
    have hi : i < (sortedSaleTimestamps sales).length := Nat.lt_of_lt_of_le hlt (Nat.le_of_lt_succ (Nat.lt_succ_of_lt hj))
    have hgd := (List.pairwise_iff_getElem.mp hpw) i j (by omega) hj hlt
    rw [List.getD_eq_getElem _ _ (by omega : i < (sortedSaleTimestamps sales).length),
      List.getD_eq_getElem _ _ hj]
    exact hgd

/-- Claim C1: for any list of classified sale events, `buildThreeMonthPeak`
returns a window whose event count is at least the count of every other
90-day window over the same timestamp-sorted data (every index window
`[l, r]` of `sortedSaleTimestamps` whose endpoints are at most
`THREE_MONTHS_MS` apart), and the returned count never exceeds the total
number of events. -/
theorem three_month_peak_maximal (sales : List RawEvent) (b : Best)
    (h : buildThreeMonthPeak sales = some b) :
    b.count ≤ sales.length ∧
    ∀ l r, l ≤ r → r < (sortedSaleTimestamps sales).length →
      (sortedSaleTimestamps sales).getD r 0 - (sortedSaleTimestamps sales).getD l 0 ≤
        THREE_MONTHS_MS →
      r - l + 1 ≤ b.count := by
  unfold buildThreeMonthPeak at h
  split at h
  · exact absurd h (by simp)
  · next hne =>
    simp only at h
    split at h
    · exact absurd h (by simp)
    · next hcnt =>
      have hb : b = peakLoop (sortedSaleTimestamps sales) (sortedSaleTimestamps sales).length
          0 0 (Best.mk 0 none none) := by
        injection h with h2
        exact h2.symm
      constructor
      · have h1 : b.count ≤ (sortedSaleTimestamps sales).length := by
          rw [hb]
          exact peakLoop_count_le _ _ 0 0 _ (Nat.le_refl 0) (Nat.zero_le _)
        have h2 : (sortedSaleTimestamps sales).length = (sales.filterMap eventTimestamp).length :=
          (List.perm_insertionSort _ _).length_eq
        have h3 : (sales.filterMap eventTimestamp).length ≤ sales.length :=
          List.length_filterMap_le _ _
        omega
      · intro l r hlr hrlen hdiff
        have := peakLoop_maximal (sortedSaleTimestamps sales)
          (sortedTs_sortedSaleTimestamps sales)
          (sortedSaleTimestamps sales).length 0 0 (Best.mk 0 none none)
          (by omega) (Nat.le_refl 0)
          (by intro i hi _; omega)
          (by intro a b hab hb _ _; omega)
          l r hlr hrlen hdiff
        rw [hb]
        omega

/-- A concrete sale event used to witness the peak-window theorem. -/
def evPeakWitness : RawEvent :=
  { block_timestamp := some (some 0), activity_type := some "sale" }

/-- Witness for `three_month_peak_maximal` at a one-event input. -/
theorem three_month_peak_maximal_witness :
    buildThreeMonthPeak [evPeakWitness] = some (Best.mk 1 (some 0) (some 0)) ∧
      (Best.mk 1 (some 0) (some 0)).count ≤ [evPeakWitness].length :=
  ⟨by decide, (three_month_peak_maximal [evPeakWitness] (Best.mk 1 (some 0) (some 0))
    (by decide)).1⟩

/-- Claim C3, counterexample: a record with no type label and no USD-bearing
field at all IS classified as a sale by the code (`Number(null)` is `0`,
which is finite, so `usdValue` returns `0`, not `null`). -/
theorem isSale_empty_record_counterexample : isSale ({} : RawEvent) = true := by decide

/-- Claim C3 as amended: `isSale` is the stated cascade on the type label
with fallback `usdValue(event) != null`; `usdValue` coerces an absent
direct-field probe to the number `0` (the nested `currency_price.usd` /
`price.usd` / `value.usd` chain is consulted only when a direct field is
present but non-numeric), so a record with no type label and no USD-bearing
field at all IS classified as a sale. -/
theorem isSale_spec (e : RawEvent) :
    (isSale e = (strContains (typeLabel e) "sale" || strContains (typeLabel e) "trade" ||
      (!strContains (typeLabel e) "listing" && !strContains (typeLabel e) "mint" &&
        (usdValue e).isSome))) ∧
    ((e.usd_value = none ∧ e.amount_usd = none ∧ e.usd_amount = none ∧ e.price_usd = none ∧
      e.sale_usd = none ∧ e.total_usd = none) → usdValue e = some 0) ∧
    ((e.activity_type = none ∧ e.type_f = none ∧ e.event_type = none ∧
      e.transaction_type = none ∧ e.operation = none ∧ e.usd_value = none ∧
      e.amount_usd = none ∧ e.usd_amount = none ∧ e.price_usd = none ∧ e.sale_usd = none ∧
      e.total_usd = none) → isSale e = true) := by
  refine ⟨?_, ?_, ?_⟩
  · simp only [isSale]
    cases hs : strContains (typeLabel e) "sale" <;>
      cases ht : strContains (typeLabel e) "trade" <;>
        cases hl : strContains (typeLabel e) "listing" <;>
          cases hm : strContains (typeLabel e) "mint" <;>
            simp [hs, ht, hl, hm]
  · rintro ⟨h1, h2, h3, h4, h5, h6⟩
    simp [usdValue, h1, h2, h3, h4, h5, h6]
  · rintro ⟨a1, a2, a3, a4, a5, u1, u2, u3, u4, u5, u6⟩
    have htype : typeLabel e = "" := by
      simp only [typeLabel, a1, a2, a3, a4, a5]
      decide
    have husd : usdValue e = some 0 := by
      simp [usdValue, u1, u2, u3, u4, u5, u6]
    simp only [isSale, htype, husd]
    decide

/-- A concrete record with a `listing_created` type label and a USD value. -/
def evListing : RawEvent :=
  { activity_type := some "listing_created", usd_value := some (jnum 5) }

/-- Witness for `isSale_spec`: the empty record is a sale (discharging the
no-field hypotheses), and a `listing_created` record is not, regardless of
its USD field. -/
theorem isSale_spec_witness :
    isSale ({} : RawEvent) = true ∧ isSale evListing = false :=
  ⟨(isSale_spec {}).2.2 ⟨rfl, rfl, rfl, rfl, rfl, rfl, rfl, rfl, rfl, rfl, rfl⟩,
    (isSale_spec evListing).1.trans (by decide)⟩

/-- Claim C7: `isMint` holds iff the type label contains "mint" and either a
token id is resolvable from the record (via the `token_id` / `tokenId` /
`nft_id` / `asset.token_id` probe) or the label also contains "nft"; a bare
"mint" label with no token id and no "nft" qualifier is rejected. -/
theorem isMint_iff (e : RawEvent) :
    isMint e = true ↔
      (strContains (typeLabel e) "mint" = true ∧
        ((resolvedTokenId e).isSome = true ∨ strContains (typeLabel e) "nft" = true)) := by
  simp only [isMint]
  cases hm : strContains (typeLabel e) "mint" <;> simp [hm]

/-- The ASCII digit for `n % 10`. -/
def digitChar (n : Nat) : Char :=
  match n % 10 with
  | 0 => '0'
  | 1 => '1'
  | 2 => '2'
  | 3 => '3'
  | 4 => '4'
  | 5 => '5'
  | 6 => '6'
  | 7 => '7'
  | 8 => '8'
  | _ => '9'

/-- Decimal digits of a natural number, most significant first (the fuel is
an upper bound on the digit count; `n` itself suffices). -/
def natDigitsAux : Nat → Nat → List Char
  | 0, n => [digitChar n]
  | fuel + 1, n => if n < 10 then [digitChar n] else natDigitsAux fuel (n / 10) ++ [digitChar (n % 10)]

/-- Decimal rendering of a natural number. -/
def natDigits (n : Nat) : String :=
  String.mk (natDigitsAux n n)

/-- Decimal rendering of an integer. -/
def intStr (i : Int) : String :=
  if i < 0 then "-" ++ natDigits (-i).toNat else natDigits i.toNat

/-- Two-digit zero-padded rendering (used for months, days, hours, ...). -/
def pad2 (n : Nat) : String :=
  String.mk [digitChar (n / 10), digitChar n]

/-- Three-digit zero-padded rendering (used for milliseconds). -/
def pad3 (n : Nat) : String :=
  String.mk [digitChar (n / 100), digitChar (n / 10), digitChar n]

/-- Four-digit zero-padded year (plain decimal outside `toISOString`'s
four-digit range, which the server's data never leaves). -/
def pad4Year (y : Int) : String :=
  if 0 ≤ y ∧ y < 10000 then
    String.mk [digitChar (y.toNat / 1000), digitChar (y.toNat / 100), digitChar (y.toNat / 10),
      digitChar y.toNat]
  else intStr y

/-- Proleptic-Gregorian civil date (year, month, day) from days since the
Unix epoch (the standard days-from-civil inverse, integer arithmetic only). -/
def civilFromDays (z : Int) : Int × Nat × Nat :=
  let z2 := z + 719468
  let era := Int.fdiv z2 146097
  let doe := (z2 - era * 146097).toNat
  let yoe := (doe - doe / 1460 + doe / 36524 - doe / 146096) / 365
  let y : Int := (yoe : Int) + era * 400
  let doy := doe - (365 * yoe + yoe / 4 - yoe / 100)
  let mp := (5 * doy + 2) / 153
  let d := doy - (153 * mp + 2) / 5 + 1
  let m := if mp < 10 then mp + 3 else mp - 9
  (if m ≤ 2 then y + 1 else y, m, d)

/-- The calendar-day key `toISOString().slice(0, 10)` of an epoch day
number. -/
def isoDay (dayNum : Int) : String :=
  let c := civilFromDays dayNum
  pad4Year c.1 ++ "-" ++ pad2 c.2.1 ++ "-" ++ pad2 c.2.2

/-- Epoch day number of an instant (ms). -/
def dayNumOfMs (t : Int) : Int := Int.fdiv t 86400000

/-- Millisecond of day of an instant. -/
def msOfDay (t : Int) : Nat := (t - 86400000 * dayNumOfMs t).toNat

/-- Models `Date.prototype.toISOString` of an instant. -/
def isoOfMs (t : Int) : String :=
  let ms := msOfDay t
  isoDay (dayNumOfMs t) ++ "T" ++ pad2 (ms / 3600000) ++ ":" ++ pad2 (ms / 60000 % 60) ++ ":" ++
    pad2 (ms / 1000 % 60) ++ "." ++ pad3 (ms % 1000) ++ "Z"

/-- One output milestone; `date` carries the instant denoted by the ISO date
string of the response (`detail`, a display-only string, is not modeled). -/
structure Milestone where
  id : String
  date : Int
  title : String
  kind : String
deriving DecidableEq

/-- The milestone ordering used by the final sort (server.js lines 522-524
and 669-671): ascending by the instant the date string denotes. -/
def msLe (a b : Milestone) : Prop := a.date ≤ b.date

instance : DecidableRel msLe := fun a b => Int.decLe a.date b.date

instance : IsTotal Milestone msLe := ⟨fun a b => Int.le_total a.date b.date⟩

instance : IsTrans Milestone msLe := ⟨fun _ _ _ hab hbc => le_trans hab hbc⟩

/-- One contract-metadata row (the keys probed by `creationDate`, the
address match and the label probe; server.js lines 382-393, 452-460,
597-605). -/
structure ContractRow where
  contract_address : Option String := none
  address : Option String := none
  created_at : Option (Option Int) := none
  contract_created_at : Option (Option Int) := none
  creation_timestamp : Option (Option Int) := none
  deployed_at : Option (Option Int) := none
  first_mint_at : Option (Option Int) := none
  first_seen_at : Option (Option Int) := none
  collection_name : Option String := none
  name : Option String := none
  contract_name : Option String := none
deriving DecidableEq

/-- server.js lines 382-393: `creationDate`. -/
def creationDate (row : ContractRow) : Option Int :=
  (row.created_at <|> row.contract_created_at <|> row.creation_timestamp <|> row.deployed_at <|>
    row.first_mint_at <|> row.first_seen_at).bind id

/-- server.js lines 452-454: the contract-set mode row matcher,
`String(firstPresent(item, ["contract_address", "address"]) || "")
.toLowerCase()`. -/
def rowAddrLc (item : ContractRow) : String :=
  lowerStr ((item.contract_address <|> item.address).getD "")

/-- server.js lines 597-599: the wallet-mode row matcher,
`normalizeAddress(firstPresent(item, ["contract_address", "address"]))`. -/
def rowAddrNorm (item : ContractRow) : Option String :=
  normalizeAddress (item.contract_address <|> item.address)

/-- One element of `salesWithDate` in contract-set mode (server.js lines
471-474). -/
structure TimedSale where
  event : RawEvent
  ts : Int
  usd : Option Int
deriving DecidableEq

/-- server.js lines 471-474: the classified sales with a parseable
timestamp, sorted ascending (stably) by it. -/
def contractSalesWithDate (saleEvents : List RawEvent) : List TimedSale :=
  List.insertionSort (fun a b => a.ts ≤ b.ts)
    (saleEvents.filterMap (fun e => (eventTimestamp e).map (fun t => TimedSale.mk e t (usdValue e))))

/-- server.js lines 436-449: the Genesis Mint milestone (earliest
timestamped mint event), if any. -/
def genesisMintMilestones (mintEvents : List RawEvent) : List Milestone :=
  match (List.insertionSort (fun a b : RawEvent × Int => a.2 ≤ b.2)
      (mintEvents.filterMap (fun e => (eventTimestamp e).map (fun t => (e, t))))).head? with
  | some p => [Milestone.mk "genesis-mint" p.2 "Genesis Mint" "mint"]
  | none => []

/-- server.js lines 451-469: one Smart Contract Created milestone per input
contract whose metadata row has a resolvable creation timestamp. -/
def contractCreatedMilestones (contracts : List String) (contractRows : List ContractRow) :
    List Milestone :=
  contracts.filterMap (fun c =>
    match (contractRows.find? (fun item => rowAddrLc item == c)).bind creationDate with
    | some t => some (Milestone.mk ("contract-" ++ c) t "Smart Contract Created" "contract")
    | none => none)

/-- server.js lines 476-520: the sale-derived milestones (First Sale,
Biggest Sale, Most Recent Sale, three-month peak), in push order. -/
def saleMilestones (sales : List TimedSale) : List Milestone :=
  match sales.head? with
  | none => []
  | some firstSale =>
    let biggest :=
      match (List.insertionSort (fun a b : TimedSale => b.usd.getD 0 ≤ a.usd.getD 0)
          (sales.filter (fun s => s.usd.isSome))).head? with
      | some s => [Milestone.mk "biggest-sale" s.ts "Biggest Sale" "sale"]
      | none => []
    let recent :=
      match sales.getLast? with
      | some s => [Milestone.mk "recent-sale" s.ts "Most Recent Sale" "sale"]
      | none => []
    let peakMs :=
      match buildThreeMonthPeak (sales.map (fun s => s.event)) with
      | some b => [Milestone.mk "peak-quarter" (b.start.getD 0) "Most Art Sold (3-Month Peak)" "volume"]
      | none => []
    Milestone.mk "first-sale" firstSale.ts "First Sale" "sale" :: (biggest ++ recent ++ peakMs)

/-- The contract-set mode response (server.js lines 529-540); `totals` is
the JSON object in key-insertion order. -/
structure ContractResponse where
  artist : String
  chain : String
  contracts : List String
  totals : List (String × Int)
  milestones : List Milestone
deriving DecidableEq

/-- server.js lines 424-541: `buildMilestones`, taking the already-fetched
rows as inputs.  Line 526 reads the identifier `mintedTokenKeys`, which is
not bound anywhere in this function (it is local to
`buildWalletMilestones`); the `salesWithDate.filter` callback referencing it
runs once per element, so the function throws a `ReferenceError` exactly
when `salesWithDate` is nonempty — on the empty list the callback never
runs and the count is `0`.  The `.filter((item) => item.date)` of line 523
keeps every candidate (each date is a nonempty ISO string, which is
truthy). -/
def buildMilestones (artist chain : String) (contracts : List String)
    (mintRows saleRows : List RawEvent) (contractRows : List ContractRow) :
    Except String ContractResponse :=
  let mintEvents := mintRows.filter isMint
  let saleEvents := saleRows.filter isSale
  let sales := contractSalesWithDate saleEvents
  let milestoneItems :=
    genesisMintMilestones mintEvents ++ contractCreatedMilestones contracts contractRows ++
      saleMilestones sales
  let ordered := List.insertionSort msLe milestoneItems
  if sales.isEmpty then
    Except.ok (ContractResponse.mk artist chain contracts
      [("mintCount", (mintEvents.length : Int)), ("saleCount", (saleEvents.length : Int)),
        ("soldCreatedCount", 0), ("soldBoughtCount", 0)] ordered)
  else Except.error "ReferenceError: mintedTokenKeys is not defined"

instance {ε α : Type} [DecidableEq ε] [DecidableEq α] : DecidableEq (Except ε α) := fun x y =>
  match x, y with
  | Except.ok a, Except.ok b =>
    if h : a = b then isTrue (by simp [h]) else isFalse (by simp [h])
  | Except.error a, Except.error b =>
    if h : a = b then isTrue (by simp [h]) else isFalse (by simp [h])
  | Except.ok _, Except.error _ => isFalse (by simp)
  | Except.error _, Except.ok _ => isFalse (by simp)

/-- The per-contract metadata fetch result: `exceptOk?` models the
`try { ... } catch { return null }` of server.js lines 345-352. -/
def exceptOk? {α : Type} : Except String α → Option α
  | Except.ok a => some a
  | Except.error _ => none

/-- server.js lines 343-356: `fetchContractRows` — each per-contract fetch
catches its own failure and contributes `null`, removed by
`.filter(Boolean)`; a metadata failure can therefore never reject. -/
def fetchContractRowsResult (results : List (Except String ContractRow)) : List ContractRow :=
  results.filterMap exceptOk?

/-- server.js lines 425-429: the `Promise.all` fan-out of the three
concurrent branches of contract-set derivation.  `Promise.all` rejects as
soon as any branch rejects (which rejection wins is a race; modeled
mint-first), and the contract-metadata branch never rejects. -/
def runContractDerivation (artist chain : String) (contracts : List String)
    (mintRes saleRes : Except String (List RawEvent))
    (contractResults : List (Except String ContractRow)) : Except String ContractResponse :=
  match mintRes, saleRes with
  | Except.error e, _ => Except.error e
  | Except.ok _, Except.error e => Except.error e
  | Except.ok mintRows, Except.ok saleRows =>
    buildMilestones artist chain contracts mintRows saleRows
      (fetchContractRowsResult contractResults)

/-- Claim C10: contract-set derivation is NOT ReferenceError-free — whenever
at least one classified sale event has a parseable timestamp, computing
`soldCreatedCount` evaluates the unbound identifier `mintedTokenKeys` and
the whole derivation throws. -/
theorem buildMilestones_reference_error (artist chain : String) (contracts : List String)
    (mintRows saleRows : List RawEvent) (contractRows : List ContractRow)
    (h : contractSalesWithDate (saleRows.filter isSale) ≠ []) :
    buildMilestones artist chain contracts mintRows saleRows contractRows =
      Except.error "ReferenceError: mintedTokenKeys is not defined" := by
  simp only [buildMilestones]
  rw [if_neg]
  simpa using h

/-- A sale event with a parseable timestamp. -/
def evSaleTs : RawEvent := { block_timestamp := some (some 10), activity_type := some "sale" }

/-- Witness for `buildMilestones_reference_error`: one timestamped sale row
makes contract-set derivation throw. -/
theorem buildMilestones_reference_error_witness :
    buildMilestones "a" "ethereum" [] [] [evSaleTs] [] =
      Except.error "ReferenceError: mintedTokenKeys is not defined" :=
  buildMilestones_reference_error "a" "ethereum" [] [] [evSaleTs] [] (by decide)

theorem filterMap_filter_isSome {α β : Type} (f : α → Option β) (l : List α) :
    (l.filter (fun a => (f a).isSome)).filterMap f = l.filterMap f := by
  induction l with
  | nil => rfl
  | cons a l ih => cases hfa : f a <;> simp [List.filter_cons, List.filterMap_cons, hfa, ih]

/-- Claim C5 as amended: an unrecoverable failure of the mint-activity or
sale-activity branch fails the entire derivation, but a contract-metadata
fetch failure is caught per contract — it is indistinguishable from that
contract simply having no metadata row, and the derivation proceeds without
that branch's data. -/
theorem concurrent_branch_failures (artist chain : String) (contracts : List String) :
    (∀ e saleRes contractResults,
      runContractDerivation artist chain contracts (Except.error e) saleRes contractResults =
        Except.error e) ∧
    (∀ mintRows e contractResults,
      runContractDerivation artist chain contracts (Except.ok mintRows) (Except.error e)
        contractResults = Except.error e) ∧
    (∀ mintRows saleRows contractResults,
      runContractDerivation artist chain contracts (Except.ok mintRows) (Except.ok saleRows)
        contractResults =
      runContractDerivation artist chain contracts (Except.ok mintRows) (Except.ok saleRows)
        (contractResults.filter (fun r => (exceptOk? r).isSome))) := by
  refine ⟨fun _ _ _ => rfl, fun _ _ _ => rfl, fun mintRows saleRows contractResults => ?_⟩
  simp only [runContractDerivation, fetchContractRowsResult]
  rw [filterMap_filter_isSome]

/-- A lower-case hex contract address used in concrete scenarios. -/
def addrA : String := "0xaaaaaaaaaaaaaaaaaaaaaaaaaaaaaaaaaaaaaaaa"

/-- A metadata row for `addrA` carrying a creation timestamp. -/
def rowA : ContractRow := { contract_address := some addrA, created_at := some (some 5) }

/-- Claim C5, counterexample: with the upstream metadata for `addrA`
failing, the derivation still succeeds — and returns a timeline missing the
Smart Contract Created milestone that the same request produces when the
metadata fetch succeeds. -/
theorem contract_metadata_failure_counterexample :
    runContractDerivation "a" "ethereum" [addrA] (Except.ok []) (Except.ok [])
        [Except.error "Allium 500: upstream failure"] =
      Except.ok (ContractResponse.mk "a" "ethereum" [addrA]
        [("mintCount", 0), ("saleCount", 0), ("soldCreatedCount", 0), ("soldBoughtCount", 0)]
        []) ∧
    runContractDerivation "a" "ethereum" [addrA] (Except.ok []) (Except.ok [])
        [Except.ok rowA] =
      Except.ok (ContractResponse.mk "a" "ethereum" [addrA]
        [("mintCount", 0), ("saleCount", 0), ("soldCreatedCount", 0), ("soldBoughtCount", 0)]
        [Milestone.mk ("contract-" ++ addrA) 5 "Smart Contract Created" "contract"]) := by
  exact ⟨by decide, by decide⟩

/-- One element of wallet-mode `salesWithDate` (server.js lines 615-625);
`fromA` / `toA` model the JS fields `from` / `to`. -/
structure WalletSale where
  event : RawEvent
  ts : Int
  transactionHash : Option JVal
  usd : Option Int
  fromA : Option String
  toA : Option String
deriving DecidableEq

/-- server.js lines 548-565: the wallet-mode sale filter — in-window
timestamp, the wallet is the sender, a trade/sale signal on the record or
its transaction, and a resolvable token key. -/
def walletSaleFilter (walletLc : String) (windowStart : Int) (e : RawEvent) : Bool :=
  match eventTimestamp e with
  | none => false
  | some ts =>
    if ts < windowStart then false
    else if !(fromAddressOf e == some walletLc) then false
    else
      let t := typeLabel e
      let hasTradeSignal := strContains t "trade" || strContains t "sale" ||
        (match e.tx_activity_types with
         | some l => l.contains "nft_trade"
         | none => false)
      hasTradeSignal && (tokenKeyFromEvent e).isSome

/-- server.js line 548: `saleEvents` of wallet mode. -/
def walletSaleEvents (walletLc : String) (windowStart : Int) (rows : List RawEvent) :
    List RawEvent :=
  rows.filter (walletSaleFilter walletLc windowStart)

/-- server.js lines 567-570: wallet-mode `mintEvents` (in-window classified
mints). -/
def walletMintEvents (windowStart : Int) (rows : List RawEvent) : List RawEvent :=
  rows.filter (fun e =>
    match eventTimestamp e with
    | some ts => decide (windowStart ≤ ts) && isMint e
    | none => false)

/-- In-window test used for `derivedContracts` (server.js lines 575-578). -/
def inWindow (windowStart : Int) (e : RawEvent) : Bool :=
  match eventTimestamp e with
  | some ts => decide (windowStart ≤ ts)
  | none => false

/-- Models `[...new Set(list)]`: first occurrences in insertion order (fuel is the
list length). -/
def dedupFirstAux : Nat → List String → List String
  | 0, _ => []
  | _ + 1, [] => []
  | fuel + 1, x :: xs => x :: dedupFirstAux fuel (xs.filter (fun y => y != x))

/-- Models `[...new Set(list)]` (server.js lines 572-582). -/
def dedupFirst (l : List String) : List String :=
  dedupFirstAux l.length l

/-- server.js lines 572-582: `derivedContracts` — contract addresses touched
by in-window activity, deduplicated keeping first occurrences. -/
def derivedContractsOf (windowStart : Int) (rows : List RawEvent) : List String :=
  dedupFirst ((rows.filter (inWindow windowStart)).filterMap contractAddressFromEvent)

/-- server.js lines 589-594: `mintedTokenKeys` — token keys of every
classified mint over the full fetched history (no window restriction),
as a list whose membership models `Set.has`. -/
def mintedTokenKeysOf (rows : List RawEvent) : List String :=
  (rows.filter isMint).filterMap tokenKeyFromEvent

/-- server.js lines 596-613: the wallet-mode New Smart Contract Launched
milestone for one derived contract (emitted only when its metadata row has
an in-window creation timestamp). -/
def walletContractMilestone1 (windowStart : Int) (contractRows : List ContractRow)
    (c : String) : Option Milestone :=
  match (contractRows.find? (fun item => rowAddrNorm item == some c)).bind creationDate with
  | some t =>
    if t < windowStart then none
    else some (Milestone.mk ("contract-" ++ c) t "New Smart Contract Launched" "contract")
  | none => none

/-- server.js lines 596-613: wallet-mode New Smart Contract Launched
milestones over the derived contracts. -/
def walletContractMilestones (windowStart : Int) (derived : List String)
    (contractRows : List ContractRow) : List Milestone :=
  derived.filterMap (walletContractMilestone1 windowStart contractRows)

/-- server.js lines 615-625: wallet-mode `salesWithDate`. -/
def walletSalesWithDate (saleEvents : List RawEvent) : List WalletSale :=
  List.insertionSort (fun a b => a.ts ≤ b.ts)
    (saleEvents.filterMap (fun e => (eventTimestamp e).map (fun t =>
      WalletSale.mk e t (e.transaction_hash <|> e.tx_hash <|> e.hash) (usdValue e)
        (fromAddressOf e) (toAddressOf e))))

/-- One step of the `salesByDay` Map update (server.js lines 628-634):
`Map.set` on an existing key keeps its position, a new key is appended. -/
def bucketUpd (l : List (Int × Nat × Int)) (day : Int) (usd : Option Int) :
    List (Int × Nat × Int) :=
  match l with
  | [] => [(day, 1, usd.getD 0)]
  | (d, c, u) :: rest =>
    if d = day then (d, c + 1, u + usd.getD 0) :: rest
    else (d, c, u) :: bucketUpd rest day usd

/-- server.js lines 627-634: `salesByDay` as an insertion-ordered
association list keyed by epoch day number, carrying (count, USD sum). -/
def bucketDays (sales : List WalletSale) : List (Int × Nat × Int) :=
  sales.foldl (fun acc s => bucketUpd acc (dayNumOfMs s.ts) s.usd) []

/-- The Biggest Sale Day comparator of server.js lines 636-639 as a total
preorder (`comparator(a, b) ≤ 0`): higher USD first, ties by higher count. -/
def bigDayLe (a b : Int × Nat × Int) : Prop :=
  b.2.2 < a.2.2 ∨ (b.2.2 = a.2.2 ∧ b.2.1 ≤ a.2.1)

instance : DecidableRel bigDayLe := fun a b =>
  inferInstanceAs (Decidable (b.2.2 < a.2.2 ∨ (b.2.2 = a.2.2 ∧ b.2.1 ≤ a.2.1)))

/-- server.js lines 636-650: the Biggest Sale Day milestone, dated at the
UTC start of the winning day. -/
def walletBiggestDayMilestones (sales : List WalletSale) : List Milestone :=
  match (List.insertionSort bigDayLe (bucketDays sales)).head? with
  | some b =>
    [Milestone.mk ("biggest-sale-day-" ++ isoDay b.1) (b.1 * 86400000) "Biggest Sale Day" "sale"]
  | none => []

/-- server.js lines 652-667: one per-sale provenance milestone per in-window
sale, id built from the transaction hash (or the ISO timestamp when the
hash is falsy) and the token key. -/
def walletPerSaleMilestones (mintedKeys : List String) (sales : List WalletSale) :
    List Milestone :=
  sales.map (fun sale =>
    let tokenKey := tokenKeyFromEvent sale.event
    let title :=
      match tokenKey with
      | some k =>
        if mintedKeys.contains k then "Token Sold (Created by Wallet)"
        else "Token Sold (Previously Bought)"
      | none => "Token Sold (Previously Bought)"
    let idHead :=
      match sale.transactionHash with
      | some v => if v.truthy then v.str else isoOfMs sale.ts
      | none => isoOfMs sale.ts
    let idTail :=
      match tokenKey with
      | some k => if k = "" then "sale" else k
      | none => "sale"
    Milestone.mk (idHead ++ "-" ++ idTail) sale.ts title "sale")

/-- The wallet-mode response (server.js lines 673-688). -/
structure WalletResponse where
  artist : String
  chain : String
  wallet : String
  contracts : List String
  windowDays : Int
  windowStart : Int
  totals : List (String × Int)
  milestones : List Milestone
deriving DecidableEq

/-- server.js lines 588-667: the wallet-mode milestone candidates in push
order (contract milestones, then Biggest Sale Day, then per-sale). -/
def walletMilestoneCandidates (windowStart : Int) (rows : List RawEvent) (walletLc : String)
    (contractRows : List ContractRow) : List Milestone :=
  walletContractMilestones windowStart (derivedContractsOf windowStart rows) contractRows ++
    walletBiggestDayMilestones (walletSalesWithDate (walletSaleEvents walletLc windowStart rows)) ++
    walletPerSaleMilestones (mintedTokenKeysOf rows)
      (walletSalesWithDate (walletSaleEvents walletLc windowStart rows))

/-- server.js lines 543-688: `buildWalletMilestones`, taking the fetched
activity rows and the metadata rows for the derived contracts as inputs
(`nowMs` is `Date.now()`).  As in contract mode, the `.filter((item) =>
item.date)` of line 670 keeps every candidate. -/
def buildWalletMilestones (artist chain wallet : String) (nowMs : Int)
    (activityRows : List RawEvent) (contractRows : List ContractRow) : WalletResponse :=
  let walletLc := lowerStr wallet
  let windowStart := nowMs - 30 * 24 * 60 * 60 * 1000
  let saleEvents := walletSaleEvents walletLc windowStart activityRows
  let mintEvents := walletMintEvents windowStart activityRows
  let derived := derivedContractsOf windowStart activityRows
  let ordered :=
    List.insertionSort msLe (walletMilestoneCandidates windowStart activityRows walletLc contractRows)
  WalletResponse.mk artist chain walletLc derived 30 windowStart
    [("mintCount", (mintEvents.length : Int)), ("saleCount", (saleEvents.length : Int))] ordered

/-- Claim C2: the wallet-mode response totals do NOT contain
`soldCreatedCount` / `soldBoughtCount` — for every input they consist of
exactly the keys `mintCount` and `saleCount` (the provenance-split totals
were placed in `buildMilestones`, where their computation reads an unbound
identifier). -/
theorem wallet_totals_keys (artist chain wallet : String) (nowMs : Int)
    (rows : List RawEvent) (contractRows : List ContractRow) :
    ((buildWalletMilestones artist chain wallet nowMs rows contractRows).totals).map Prod.fst =
      ["mintCount", "saleCount"] := rfl

/-- Claim C6: the milestone sequence of every response is sorted
non-decreasing by timestamp — unconditionally in wallet mode, and in
contract-set mode for every input on which the derivation returns at all. -/
theorem milestones_sorted_by_timestamp :
    (∀ artist chain wallet nowMs rows contractRows,
      List.Sorted msLe
        (buildWalletMilestones artist chain wallet nowMs rows contractRows).milestones) ∧
    (∀ artist chain contracts mintRows saleRows contractRows r,
      buildMilestones artist chain contracts mintRows saleRows contractRows = Except.ok r →
      List.Sorted msLe r.milestones) := by
  constructor
  · intro artist chain wallet nowMs rows contractRows
    exact List.sorted_insertionSort msLe _
  · intro artist chain contracts mintRows saleRows contractRows r h
    simp only [buildMilestones] at h
    split at h
    · injection h with h2
      rw [h2.symm]
      exact List.sorted_insertionSort msLe _
    · simp at h

/-- The empty contract-set response used to witness the sortedness
theorem. -/
def respEmpty : ContractResponse :=
  ContractResponse.mk "a" "ethereum" []
    [("mintCount", 0), ("saleCount", 0), ("soldCreatedCount", 0), ("soldBoughtCount", 0)] []

/-- Witness for `milestones_sorted_by_timestamp` on a concrete contract-set
derivation that returns. -/
theorem milestones_sorted_by_timestamp_witness : List.Sorted msLe respEmpty.milestones :=
  milestones_sorted_by_timestamp.2 "a" "ethereum" [] [] [] [] respEmpty (by decide)

theorem dedupFirstAux_subset : ∀ (fuel : Nat) (l : List String) (x : String),
    x ∈ dedupFirstAux fuel l → x ∈ l := by
  intro fuel
  induction fuel with
  | zero => intro l x hx; simp [dedupFirstAux] at hx
  | succ fuel ih =>
    intro l x hx
    cases l with
    | nil => simp [dedupFirstAux] at hx
    | cons a as =>
      simp only [dedupFirstAux, List.mem_cons] at hx
      rcases hx with h | h
      · exact h ▸ List.mem_cons_self a as
      · exact List.mem_cons_of_mem a (List.mem_of_mem_filter (ih _ x h))

theorem dedupFirstAux_nodup : ∀ (fuel : Nat) (l : List String), l.length ≤ fuel →
    (dedupFirstAux fuel l).Nodup := by
  intro fuel
  induction fuel with
  | zero => intro l _; simp [dedupFirstAux]
  | succ fuel ih =>
    intro l hlen
    cases l with
    | nil => simp [dedupFirstAux]
    | cons a as =>
      simp only [dedupFirstAux]
      refine List.Pairwise.cons ?_ (ih _ (le_trans (List.length_filter_le _ _) (by simpa using hlen)))
      intro b hb heq
      have hbf := List.mem_filter.mp (dedupFirstAux_subset fuel _ b hb)
      rw [heq] at hbf
      simp at hbf

theorem dedupFirst_subset (l : List String) (x : String) (hx : x ∈ dedupFirst l) : x ∈ l :=
  dedupFirstAux_subset l.length l x hx

theorem dedupFirst_nodup (l : List String) : (dedupFirst l).Nodup :=
  dedupFirstAux_nodup l.length l (Nat.le_refl _)

theorem normalizeAddress_hex (v : Option String) (s : String)
    (h : normalizeAddress v = some s) : isHexAddr s = true := by
  unfold normalizeAddress at h
  split at h
  · exact absurd h (by simp)
  · split at h
    · exact absurd h (by simp)
    · simp only at h
      split at h
      · next hhex =>
        injection h with h2
        rw [← h2]
        exact hhex
      · exact absurd h (by simp)

theorem contractAddressFromEvent_hex (e : RawEvent) (c : String)
    (h : contractAddressFromEvent e = some c) : isHexAddr c = true :=
  normalizeAddress_hex _ _ h

theorem derivedContracts_hex (windowStart : Int) (rows : List RawEvent) (c : String)
    (hc : c ∈ derivedContractsOf windowStart rows) : isHexAddr c = true := by
  unfold derivedContractsOf at hc
  obtain ⟨e, _, hce⟩ := List.mem_filterMap.mp (dedupFirst_subset _ _ hc)
  exact contractAddressFromEvent_hex e c hce

theorem isHexAddr_no_colon (s : String) (h : isHexAddr s = true) : ':' ∉ s.data := by
  unfold isHexAddr at h
  split at h
  · next rest heq =>
    intro hmem
    rw [heq] at hmem
    simp only [List.mem_cons] at hmem
    rcases hmem with h1 | h1 | h1
    · exact absurd h1 (by decide)
    · exact absurd h1 (by decide)
    · simp only [Bool.and_eq_true, List.all_eq_true] at h
      have := h.2 ':' h1
      revert this
      decide
  · exact absurd h (by simp)

theorem digitChar_ne_colon (n : Nat) : digitChar n ≠ ':' := by
  unfold digitChar
  split <;> decide

theorem natDigitsAux_no_colon : ∀ (fuel n : Nat), ':' ∉ natDigitsAux fuel n := by
  intro fuel
  induction fuel with
  | zero =>
    intro n h
    simp only [natDigitsAux, List.mem_singleton] at h
    exact digitChar_ne_colon n h.symm
  | succ fuel ih =>
    intro n h
    simp only [natDigitsAux] at h
    split at h
    · simp only [List.mem_singleton] at h
      exact digitChar_ne_colon n h.symm
    · rcases List.mem_append.mp h with h1 | h1
      · exact ih (n / 10) h1
      · simp only [List.mem_singleton] at h1
        exact digitChar_ne_colon (n % 10) h1.symm

theorem intStr_no_colon (i : Int) : ':' ∉ (intStr i).data := by
  unfold intStr natDigits
  split
  · rw [String.data_append]
    intro h
    rcases List.mem_append.mp h with h1 | h1
    · exact absurd h1 (by decide)
    · exact natDigitsAux_no_colon _ _ h1
  · exact natDigitsAux_no_colon _ _

theorem pad2_no_colon (n : Nat) : ':' ∉ (pad2 n).data := by
  intro h
  simp only [pad2, List.mem_cons] at h
  rcases h with h1 | h1 | h1
  · exact digitChar_ne_colon _ h1.symm
  · exact digitChar_ne_colon _ h1.symm
  · simp at h1

theorem pad4Year_no_colon (y : Int) : ':' ∉ (pad4Year y).data := by
  unfold pad4Year
  split
  · intro h
    simp only [List.mem_cons] at h
    rcases h with h1 | h1 | h1 | h1 | h1
    · exact digitChar_ne_colon _ h1.symm
    · exact digitChar_ne_colon _ h1.symm
    · exact digitChar_ne_colon _ h1.symm
    · exact digitChar_ne_colon _ h1.symm
    · simp at h1
  · exact intStr_no_colon y

theorem isoDay_no_colon (d : Int) : ':' ∉ (isoDay d).data := by
  unfold isoDay
  simp only [String.data_append]
  intro h
  rcases List.mem_append.mp h with h1 | h1
  · rcases List.mem_append.mp h1 with h2 | h2
    · rcases List.mem_append.mp h2 with h3 | h3
      · rcases List.mem_append.mp h3 with h4 | h4
        · exact pad4Year_no_colon _ h4
        · exact absurd h4 (by decide)
      · exact pad2_no_colon _ h3
    · exact absurd h2 (by decide)
  · exact pad2_no_colon _ h1

theorem tokenKey_has_colon (e : RawEvent) (k : String) (h : tokenKeyFromEvent e = some k) :
    ':' ∈ k.data := by
  unfold tokenKeyFromEvent at h
  split at h
  · injection h with h2
    rw [← h2]
    simp only [String.data_append]
    exact List.mem_append.mpr (Or.inl (List.mem_append.mpr (Or.inr (by decide))))
  · exact absurd h (by simp)

theorem walletSaleFilter_tokenKey (walletLc : String) (windowStart : Int) (e : RawEvent)
    (h : walletSaleFilter walletLc windowStart e = true) :
    (tokenKeyFromEvent e).isSome = true := by
  unfold walletSaleFilter at h
  split at h
  · exact absurd h (by simp)
  · split at h
    · exact absurd h (by simp)
    · split at h
      · exact absurd h (by simp)
      · simp only [Bool.and_eq_true] at h
        exact h.2

theorem walletSalesWithDate_tokenKey (walletLc : String) (windowStart : Int)
    (rows : List RawEvent) (s : WalletSale)
    (hs : s ∈ walletSalesWithDate (walletSaleEvents walletLc windowStart rows)) :
    (tokenKeyFromEvent s.event).isSome = true := by
  simp only [walletSalesWithDate] at hs
  have hmem := (List.perm_insertionSort _ _).mem_iff.mp hs
  obtain ⟨e, he, hfe⟩ := List.mem_filterMap.mp hmem
  have hevent : s.event = e := by
    cases hts : eventTimestamp e with
    | none => rw [hts] at hfe; exact absurd hfe (by simp)
    | some t =>
      rw [hts] at hfe
      simp only [Option.map_some'] at hfe
      injection hfe with h2
      rw [← h2]
  rw [hevent]
  simp only [walletSaleEvents] at he
  exact walletSaleFilter_tokenKey walletLc windowStart e (List.mem_filter.mp he).2

theorem walletContractMilestone1_id (windowStart : Int) (contractRows : List ContractRow)
    (c : String) (m : Milestone) (h : walletContractMilestone1 windowStart contractRows c = some m) :
    m.id = "contract-" ++ c := by
  unfold walletContractMilestone1 at h
  split at h
  · split at h
    · exact absurd h (by simp)
    · injection h with h2
      rw [← h2]
  · exact absurd h (by simp)

theorem walletBiggestDay_id (sales : List WalletSale) (m : Milestone)
    (hm : m ∈ walletBiggestDayMilestones sales) :
    ∃ d : Int, m.id = "biggest-sale-day-" ++ isoDay d := by
  unfold walletBiggestDayMilestones at hm
  split at hm
  · next b _ =>
    simp only [List.mem_singleton] at hm
    exact ⟨b.1, by rw [hm]⟩
  · simp at hm

theorem walletPerSaleMilestones_colon (keys : List String) (sales : List WalletSale)
    (hk : ∀ s ∈ sales, (tokenKeyFromEvent s.event).isSome = true)
    (m : Milestone) (hm : m ∈ walletPerSaleMilestones keys sales) : ':' ∈ m.id.data := by
  unfold walletPerSaleMilestones at hm
  obtain ⟨s, hs, hms⟩ := List.mem_map.mp hm
  obtain ⟨k, hkk⟩ := Option.isSome_iff_exists.mp (hk s hs)
  have hcolon := tokenKey_has_colon _ _ hkk
  have hkne : k ≠ "" := by
    intro h0
    rw [h0] at hcolon
    exact absurd hcolon (by decide)
  rw [← hms]
  simp only [hkk, if_neg hkne]
  rw [String.data_append]
  exact List.mem_append.mpr (Or.inr hcolon)

theorem contract_id_no_colon (c : String) (hhex : isHexAddr c = true) :
    ':' ∉ ("contract-" ++ c).data := by
  rw [String.data_append]
  intro h
  rcases List.mem_append.mp h with h1 | h1
  · exact absurd h1 (by decide)
  · exact isHexAddr_no_colon c hhex h1

theorem biggestDay_id_no_colon (d : Int) : ':' ∉ ("biggest-sale-day-" ++ isoDay d).data := by
  rw [String.data_append]
  intro h
  rcases List.mem_append.mp h with h1 | h1
  · exact absurd h1 (by decide)
  · exact isoDay_no_colon d h1

theorem contract_biggest_ids_ne (c : String) (d : Int) :
    "contract-" ++ c ≠ "biggest-sale-day-" ++ isoDay d := by
  intro h
  have hdata := congrArg String.data h
  rw [String.data_append, String.data_append] at hdata
  have hc : ("contract-" : String).data = 'c' :: ['o', 'n', 't', 'r', 'a', 'c', 't', '-'] := by decide
  have hb : ("biggest-sale-day-" : String).data =
      'b' :: ['i', 'g', 'g', 'e', 's', 't', '-', 's', 'a', 'l', 'e', '-', 'd', 'a', 'y', '-'] := by
    decide
  rw [hc, hb] at hdata
  simp at hdata

/-- The pairwise id relation that actually holds in one wallet-mode
response: two milestones either have distinct ids or are both per-sale
milestones (recognized by the token-key colon in their ids). -/
def idsOkRel (a b : Milestone) : Prop :=
  a.id ≠ b.id ∨ (':' ∈ a.id.data ∧ ':' ∈ b.id.data)

/-- Claim C9 as amended: within one wallet-mode response, milestone ids are
pairwise distinct across and within the contract-creation and biggest-day
categories, but the per-sale milestones are never deduplicated — two
in-window sale events sharing transaction hash and token key produce
duplicate ids.  Formally, every pair of milestones in the response has
distinct ids or consists of two per-sale milestones. -/
theorem wallet_milestone_ids_pairwise (artist chain wallet : String) (nowMs : Int)
    (rows : List RawEvent) (contractRows : List ContractRow) :
    List.Pairwise idsOkRel
      (buildWalletMilestones artist chain wallet nowMs rows contractRows).milestones := by
  have hsymm : ∀ {x y : Milestone}, idsOkRel x y → idsOkRel y x := by
    intro x y h
    rcases h with h | h
    · exact Or.inl (Ne.symm h)
    · exact Or.inr ⟨h.2, h.1⟩
  show List.Pairwise idsOkRel (List.insertionSort msLe
    (walletMilestoneCandidates (nowMs - 30 * 24 * 60 * 60 * 1000) rows (lowerStr wallet)
      contractRows))
  refine ((List.perm_insertionSort msLe _).pairwise_iff hsymm).mpr ?_
  unfold walletMilestoneCandidates
  have hA : ∀ m ∈ walletContractMilestones (nowMs - 30 * 24 * 60 * 60 * 1000)
      (derivedContractsOf (nowMs - 30 * 24 * 60 * 60 * 1000) rows) contractRows,
      ∃ c, isHexAddr c = true ∧ m.id = "contract-" ++ c := by
    intro m hm
    obtain ⟨c, hc, hfc⟩ := List.mem_filterMap.mp hm
    exact ⟨c, derivedContracts_hex _ rows c hc, walletContractMilestone1_id _ _ _ _ hfc⟩
  have hB : ∀ m ∈ walletBiggestDayMilestones (walletSalesWithDate
      (walletSaleEvents (lowerStr wallet) (nowMs - 30 * 24 * 60 * 60 * 1000) rows)),
      ∃ d : Int, m.id = "biggest-sale-day-" ++ isoDay d := fun m hm =>
    walletBiggestDay_id _ m hm
  have hC : ∀ m ∈ walletPerSaleMilestones (mintedTokenKeysOf rows) (walletSalesWithDate
      (walletSaleEvents (lowerStr wallet) (nowMs - 30 * 24 * 60 * 60 * 1000) rows)),
      ':' ∈ m.id.data := fun m hm =>
    walletPerSaleMilestones_colon _ _
      (fun s hs => walletSalesWithDate_tokenKey _ _ rows s hs) m hm
  rw [List.pairwise_append]
  refine ⟨?_, ?_, ?_⟩
  · -- contract ids ++ biggest-day id
    rw [List.pairwise_append]
    refine ⟨?_, ?_, ?_⟩
    · -- contract ids are pairwise distinct
      refine List.Pairwise.filterMap _ ?_ (dedupFirst_nodup _)
      intro c c' hne m hm m' hm'
      have h1 := walletContractMilestone1_id _ _ _ _ hm
      have h2 := walletContractMilestone1_id _ _ _ _ hm'
      refine Or.inl ?_
      rw [h1, h2]
      intro heq
      have := List.append_cancel_left (congrArg String.data heq)
      exact hne (String.ext this)
    · -- at most one biggest-day milestone
      unfold walletBiggestDayMilestones
      split
      · exact List.pairwise_singleton _ _
      · exact List.Pairwise.nil
    · -- contract ids never collide with the biggest-day id
      intro m hm m' hm'
      obtain ⟨c, _, hid⟩ := hA m hm
      obtain ⟨d, hid'⟩ := hB m' hm'
      refine Or.inl ?_
      rw [hid, hid']
      exact contract_biggest_ids_ne c d
  · -- per-sale milestones all carry a token-key colon
    exact List.pairwise_of_forall_mem_list (fun a ha b hb => Or.inr ⟨hC a ha, hC b hb⟩)
  · -- neither a contract id nor the biggest-day id contains a colon
    intro m hm m' hm'
    have hcol := hC m' hm'
    rcases List.mem_append.mp hm with h1 | h1
    · obtain ⟨c, hhex, hid⟩ := hA m h1
      refine Or.inl ?_
      intro heq
      rw [← heq, hid] at hcol
      exact contract_id_no_colon c hhex hcol
    · obtain ⟨d, hid⟩ := hB m h1
      refine Or.inl ?_
      intro heq
      rw [← heq, hid] at hcol
      exact biggestDay_id_no_colon d hcol

/-- A second hex wallet address. -/
def walletW : String := "0xbbbbbbbbbbbbbbbbbbbbbbbbbbbbbbbbbbbbbbbb"

/-- A sale row of wallet `walletW` for token `addrA:1`, duplicated in the
fetched rows (as happens when a transaction reports the same trade both as
an asset transfer and as an activity). -/
def evDupSale : RawEvent :=
  { block_timestamp := some (some 1000),
    activity_type := some "sale",
    from_address := some walletW,
    contract_address := some addrA,
    token_id := some (jnum 1),
    transaction_hash := some (jstr "0xdead") }

/-- Claim C9, counterexample: two identical in-window sale rows produce two
per-sale milestones with the same id — ids are NOT pairwise distinct within
one response, and no deduplication happens. -/
theorem wallet_duplicate_ids_counterexample :
    ¬ (((buildWalletMilestones "a" "ethereum" walletW 2000 [evDupSale, evDupSale]
        []).milestones.map (fun m => m.id)).Nodup) := by decide

/-- A record lacking every timestamp field in the priority list. -/
def noTsFields (e : RawEvent) : Bool :=
  e.block_timestamp.isNone && e.timestamp.isNone && e.created_at.isNone &&
    e.activity_timestamp.isNone && e.event_timestamp.isNone

theorem noTs_eventTimestamp (e : RawEvent) (h : noTsFields e = true) : eventTimestamp e = none := by
  simp only [noTsFields, Bool.and_eq_true, Option.isNone_iff_eq_none] at h
  obtain ⟨⟨⟨⟨h1, h2⟩, h3⟩, h4⟩, h5⟩ := h
  simp [eventTimestamp, h1, h2, h3, h4, h5]

theorem filterMap_drop_noTs {β : Type} (p : RawEvent → Bool) (g : RawEvent → Int → β) :
    ∀ l : List RawEvent,
      ((l.filter (fun e => !noTsFields e)).filter p).filterMap
          (fun e => (eventTimestamp e).map (g e)) =
        (l.filter p).filterMap (fun e => (eventTimestamp e).map (g e)) := by
  intro l
  induction l with
  | nil => rfl
  | cons a l ih =>
    by_cases hn : noTsFields a = true
    · have hts := noTs_eventTimestamp a hn
      have h1 : (a :: l).filter (fun e => !noTsFields e) = l.filter (fun e => !noTsFields e) := by
        rw [List.filter_cons, if_neg]
        simp [hn]
      have hfa : Option.map (g a) (eventTimestamp a) = none := by rw [hts]; rfl
      by_cases hp : p a = true
      · have h2 : (a :: l).filter p = a :: l.filter p := by rw [List.filter_cons, if_pos hp]
        rw [h1, h2, List.filterMap_cons, hfa]
        exact ih
      · have h2 : (a :: l).filter p = l.filter p := by
          rw [List.filter_cons, if_neg]
          simp [hp]
        rw [h1, h2]
        exact ih
    · have hfalse : noTsFields a = false := by
        cases hx : noTsFields a
        · rfl
        · exact absurd hx hn
      have h1 : (a :: l).filter (fun e => !noTsFields e) =
          a :: l.filter (fun e => !noTsFields e) := by
        rw [List.filter_cons, if_pos]
        rw [hfalse]
        rfl
      by_cases hp : p a = true
      · have h2l : (a :: l.filter (fun e => !noTsFields e)).filter p =
            a :: (l.filter (fun e => !noTsFields e)).filter p := by
          rw [List.filter_cons, if_pos hp]
        have h2r : (a :: l).filter p = a :: l.filter p := by rw [List.filter_cons, if_pos hp]
        cases hfa : Option.map (g a) (eventTimestamp a) with
        | none =>
          rw [h1, h2l, h2r, List.filterMap_cons, List.filterMap_cons, hfa]
          exact ih
        | some b =>
          rw [h1, h2l, h2r, List.filterMap_cons, List.filterMap_cons, hfa]
          exact congrArg (List.cons b) ih
      · have h2l : (a :: l.filter (fun e => !noTsFields e)).filter p =
            (l.filter (fun e => !noTsFields e)).filter p := by
          rw [List.filter_cons, if_neg]
          simp [hp]
        have h2r : (a :: l).filter p = l.filter p := by
          rw [List.filter_cons, if_neg]
          simp [hp]
        rw [h1, h2l, h2r]
        exact ih

theorem filter_of_filter_sub {α : Type} (p q : α → Bool) (hpq : ∀ a, p a = true → q a = true) :
    ∀ l : List α, (l.filter q).filter p = l.filter p := by
  intro l
  induction l with
  | nil => rfl
  | cons a l ih =>
    by_cases hp : p a = true
    · have hq := hpq a hp
      simp [List.filter_cons, hp, hq, ih]
    · by_cases hq : q a = true
      · simp [List.filter_cons, hp, hq, ih]
      · simp [List.filter_cons, hp, hq, ih]

theorem walletSaleFilter_hasTs (walletLc : String) (windowStart : Int) (e : RawEvent)
    (h : walletSaleFilter walletLc windowStart e = true) : (!noTsFields e) = true := by
  by_contra hcon
  have hn : noTsFields e = true := by
    cases hx : noTsFields e
    · rw [hx] at hcon; exact absurd rfl hcon
    · rfl
  have hts := noTs_eventTimestamp e hn
  unfold walletSaleFilter at h
  rw [hts] at h
  exact absurd h (by simp)

theorem inWindow_hasTs (windowStart : Int) (e : RawEvent)
    (h : inWindow windowStart e = true) : (!noTsFields e) = true := by
  by_contra hcon
  have hn : noTsFields e = true := by
    cases hx : noTsFields e
    · rw [hx] at hcon; exact absurd rfl hcon
    · rfl
  have hts := noTs_eventTimestamp e hn
  unfold inWindow at h
  rw [hts] at h
  exact absurd h (by simp)

theorem walletMintFilter_hasTs (windowStart : Int) (e : RawEvent)
    (h : (match eventTimestamp e with
          | some ts => decide (windowStart ≤ ts) && isMint e
          | none => false) = true) : (!noTsFields e) = true := by
  by_contra hcon
  have hn : noTsFields e = true := by
    cases hx : noTsFields e
    · rw [hx] at hcon; exact absurd rfl hcon
    · rfl
  have hts := noTs_eventTimestamp e hn
  rw [hts] at h
  exact absurd h (by simp)

/-- The id/date projection of a milestone. -/
def msIdDate (m : Milestone) : String × Int := (m.id, m.date)

/-- The milestone order seen through `msIdDate`. -/
def sndLe (x y : String × Int) : Prop := x.2 ≤ y.2

instance : DecidableRel sndLe := fun x y => Int.decLe x.2 y.2

theorem map_orderedInsert {α β : Type} (f : α → β) (r : α → α → Prop) [DecidableRel r]
    (s : β → β → Prop) [DecidableRel s] (hrs : ∀ a b, r a b ↔ s (f a) (f b)) (a : α) :
    ∀ l : List α, (List.orderedInsert r a l).map f = List.orderedInsert s (f a) (l.map f) := by
  intro l
  induction l with
  | nil => rfl
  | cons b l ih =>
    by_cases h : r a b
    · rw [List.orderedInsert, if_pos h, List.map_cons, List.map_cons,
        List.orderedInsert, if_pos ((hrs a b).mp h)]
    · rw [List.orderedInsert, if_neg h, List.map_cons, List.map_cons, List.orderedInsert,
        if_neg (fun hs => h ((hrs a b).mpr hs)), ih]

theorem map_insertionSort_congr {α β : Type} (f : α → β) (r : α → α → Prop) [DecidableRel r]
    (s : β → β → Prop) [DecidableRel s] (hrs : ∀ a b, r a b ↔ s (f a) (f b)) :
    ∀ l₁ l₂ : List α, l₁.map f = l₂.map f →
      (List.insertionSort r l₁).map f = (List.insertionSort r l₂).map f := by
  intro l₁
  induction l₁ with
  | nil =>
    intro l₂ h
    have : l₂ = [] := by
      cases l₂ with
      | nil => rfl
      | cons b m => exact absurd h.symm (by simp)
    rw [this]
  | cons a l ih =>
    intro l₂ h
    cases l₂ with
    | nil => exact absurd h (by simp)
    | cons b m =>
      simp only [List.map_cons, List.cons.injEq] at h
      rw [List.insertionSort, List.insertionSort, map_orderedInsert f r s hrs,
        map_orderedInsert f r s hrs, h.1, ih m h.2]

theorem msLe_iff_sndLe (a b : Milestone) : msLe a b ↔ sndLe (msIdDate a) (msIdDate b) :=
  Iff.rfl

theorem perSale_idDate (keys keys' : List String) (sales : List WalletSale) :
    (walletPerSaleMilestones keys sales).map msIdDate =
      (walletPerSaleMilestones keys' sales).map msIdDate := by
  unfold walletPerSaleMilestones
  rw [List.map_map, List.map_map]
  rfl

/-- Claim C4 as amended: a record lacking every timestamp field never
produces a milestone — removing all such records changes neither the
contract-set milestone list nor the wallet-mode milestone ids/dates — and
never contributes to the wallet-mode totals; but in contract-set mode such
records still count toward `mintCount` / `saleCount` (those totals are
computed before the timestamp filter), and in wallet mode such a mint
record can still influence a per-sale provenance title through the
minted-token-key set. -/
theorem timestampless_records_excluded (artist chain wallet : String) (nowMs : Int)
    (contracts : List String) (mintRows saleRows rows : List RawEvent)
    (contractRows : List ContractRow) :
    ((buildMilestones artist chain contracts (mintRows.filter (fun e => !noTsFields e))
        (saleRows.filter (fun e => !noTsFields e)) contractRows).map (fun r => r.milestones) =
      (buildMilestones artist chain contracts mintRows saleRows contractRows).map
        (fun r => r.milestones)) ∧
    ((buildWalletMilestones artist chain wallet nowMs (rows.filter (fun e => !noTsFields e))
        contractRows).totals =
      (buildWalletMilestones artist chain wallet nowMs rows contractRows).totals) ∧
    ((buildWalletMilestones artist chain wallet nowMs (rows.filter (fun e => !noTsFields e))
        contractRows).milestones.map msIdDate =
      (buildWalletMilestones artist chain wallet nowMs rows contractRows).milestones.map
        msIdDate) := by
  have hsales : contractSalesWithDate ((saleRows.filter (fun e => !noTsFields e)).filter isSale) =
      contractSalesWithDate (saleRows.filter isSale) := by
    unfold contractSalesWithDate
    rw [filterMap_drop_noTs]
  have hgen : genesisMintMilestones ((mintRows.filter (fun e => !noTsFields e)).filter isMint) =
      genesisMintMilestones (mintRows.filter isMint) := by
    unfold genesisMintMilestones
    rw [filterMap_drop_noTs]
  have hsaleEv : walletSaleEvents (lowerStr wallet) (nowMs - 30 * 24 * 60 * 60 * 1000)
      (rows.filter (fun e => !noTsFields e)) =
      walletSaleEvents (lowerStr wallet) (nowMs - 30 * 24 * 60 * 60 * 1000) rows := by
    unfold walletSaleEvents
    exact filter_of_filter_sub _ _ (walletSaleFilter_hasTs _ _) rows
  have hmintEv : walletMintEvents (nowMs - 30 * 24 * 60 * 60 * 1000)
      (rows.filter (fun e => !noTsFields e)) =
      walletMintEvents (nowMs - 30 * 24 * 60 * 60 * 1000) rows := by
    unfold walletMintEvents
    exact filter_of_filter_sub _ _ (walletMintFilter_hasTs _) rows
  have hderiv : derivedContractsOf (nowMs - 30 * 24 * 60 * 60 * 1000)
      (rows.filter (fun e => !noTsFields e)) =
      derivedContractsOf (nowMs - 30 * 24 * 60 * 60 * 1000) rows := by
    unfold derivedContractsOf
    rw [filter_of_filter_sub _ _ (inWindow_hasTs _) rows]
  refine ⟨?_, ?_, ?_⟩
  · simp only [buildMilestones, hsales, hgen]
    split <;> rfl
  · simp only [buildWalletMilestones, hsaleEv, hmintEv]
  · show (List.insertionSort msLe
      (walletMilestoneCandidates (nowMs - 30 * 24 * 60 * 60 * 1000)
        (rows.filter (fun e => !noTsFields e)) (lowerStr wallet) contractRows)).map msIdDate =
      (List.insertionSort msLe
        (walletMilestoneCandidates (nowMs - 30 * 24 * 60 * 60 * 1000) rows (lowerStr wallet)
          contractRows)).map msIdDate
    refine map_insertionSort_congr msIdDate msLe sndLe msLe_iff_sndLe _ _ ?_
    unfold walletMilestoneCandidates
    rw [hderiv, hsaleEv]
    simp only [List.map_append]
    rw [perSale_idDate (mintedTokenKeysOf (rows.filter (fun e => !noTsFields e)))
      (mintedTokenKeysOf rows)]

/-- A classified mint record with no timestamp field at all. -/
def evMintNoTs : RawEvent := { activity_type := some "mint", token_id := some (jnum 1) }

/-- Claim C4, counterexample: in contract-set mode, a mint record lacking
every timestamp field still contributes to the `mintCount` total (the
claim requires it to contribute to no totals). -/
theorem noTs_counts_in_totals_counterexample :
    (buildMilestones "a" "ethereum" [] [evMintNoTs] [] []).map (fun r => r.totals) =
      Except.ok [("mintCount", 1), ("saleCount", 0), ("soldCreatedCount", 0),
        ("soldBoughtCount", 0)] := by decide

/-- Models `payload?.cursor || null` (server.js lines 266, 334): an absent or
empty-string cursor becomes `null`. -/
def normCursor (c : Option String) : Option String :=
  match c with
  | some s => if s = "" then none else some s
  | none => none

/-- server.js lines 253-271: the per-contract page loop of
`fetchActivitiesForContract` — the page oracle `get` maps a cursor to
(rows, next cursor); the result carries the accumulated rows and the number
of page requests issued.  Fuel starts at `MAX_CONTRACT_ACTIVITY_PAGES =
40`. -/
def contractPageLoop (get : Option String → List RawEvent × Option String) (contract : String) :
    Nat → Nat → Option String → List RawEvent → List RawEvent × Nat
  | 0, page, _, acc => (acc, page)
  | fuel + 1, page, cursor, acc =>
    let payload := get cursor
    let pageRows := payload.1
    let acc2 := acc ++ pageRows.map (fun row =>
      { row with contract_address := jsOrStr row.contract_address (some contract) })
    let cursor2 := normCursor payload.2
    if cursor2 = none ∨ pageRows.length < 100 then (acc2, page + 1)
    else contractPageLoop get contract fuel (page + 1) cursor2 acc2

/-- server.js lines 253-271: `fetchActivitiesForContract` against a page
oracle. -/
def fetchActivitiesForContract (get : Option String → List RawEvent × Option String)
    (contract : String) : List RawEvent × Nat :=
  contractPageLoop get contract 40 0 none []

/-- The cursor the per-contract loop passes to its `n`-th page request. -/
def contractCursorTrace (get : Option String → List RawEvent × Option String) :
    Nat → Option String
  | 0 => none
  | n + 1 => normCursor (get (contractCursorTrace get n)).2

/-- One raw wallet transaction (server.js lines 296-331): timestamp fields,
hash fields, and the nested `activities` / `asset_transfers` sub-record
arrays (`none` models a non-array value). -/
structure WalletTx where
  block_timestamp : Option (Option Int) := none
  timestamp : Option (Option Int) := none
  hash : Option JVal := none
  transaction_hash : Option JVal := none
  activities : Option (List RawEvent) := none
  asset_transfers : Option (List RawEvent) := none
deriving DecidableEq

/-- server.js lines 303-309: the lower-cased activity-type labels of a
transaction (note: this probe list omits `transaction_type`). -/
def txActivityTypesOf (tx : WalletTx) : List String :=
  ((tx.activities.getD []).map (fun item =>
    lowerStr ((item.activity_type <|> item.type_f <|> item.event_type <|>
      item.operation).getD ""))).filter (fun s => s != "")

/-- server.js lines 311-331: flattening one transaction into rows — each
transfer and each activity becomes its own row inheriting the parent
transaction's timestamp and hash when it lacks its own (the `||` fallback
is modeled by field presence for the timestamp and by JS truthiness for the
hash). -/
def walletTxFlatten (tx : WalletTx) : List RawEvent :=
  let txTimestamp := tx.block_timestamp <|> tx.timestamp
  let txHash := jsOr tx.hash tx.transaction_hash
  let txTypes := txActivityTypesOf tx
  (tx.asset_transfers.getD []).map (fun tr =>
    { tr with
      block_timestamp := tr.block_timestamp <|> txTimestamp,
      transaction_hash := jsOr tr.transaction_hash txHash,
      tx_activity_types := some txTypes }) ++
  (tx.activities.getD []).map (fun a =>
    { a with
      block_timestamp := a.block_timestamp <|> txTimestamp,
      transaction_hash := jsOr a.transaction_hash txHash,
      tx_activity_types := some txTypes })

/-- server.js lines 294-300: `oldestSeenOnPage` (`none` is the initial
`+Infinity`). -/
def pageOldest (txRows : List WalletTx) : Option Int :=
  txRows.foldl (fun acc tx =>
    match (tx.block_timestamp <|> tx.timestamp).bind id with
    | some t =>
      some (match acc with
        | some a1 => min a1 t
        | none => t)
    | none => acc) none

/-- Models `oldestSeenOnPage <= cutoff` (false at `+Infinity`). -/
def oleB (o : Option Int) (c : Int) : Bool :=
  match o with
  | some t => decide (t ≤ c)
  | none => false

/-- server.js lines 280-341: the wallet transaction page loop of
`fetchWalletActivities` — stop on a missing cursor or short page, then on
the provenance-lookback cutoff, then on the recent-window cutoff once at
least four pages are fetched.  Fuel starts at `MAX_WALLET_TX_PAGES = 20`. -/
def walletPageLoop (get : Option String → List WalletTx × Option String) (nowMs : Int) :
    Nat → Nat → Option String → List RawEvent → List RawEvent × Nat
  | 0, page, _, acc => (acc, page)
  | fuel + 1, page, cursor, acc =>
    let payload := get cursor
    let txRows := payload.1
    let acc2 := acc ++ txRows.flatMap walletTxFlatten
    let cursor2 := normCursor payload.2
    let oldest := pageOldest txRows
    if cursor2 = none ∨ txRows.length < 1000 then (acc2, page + 1)
    else if oleB oldest (nowMs - 365 * 24 * 60 * 60 * 1000) then (acc2, page + 1)
    else if oleB oldest (nowMs - 30 * 24 * 60 * 60 * 1000) && decide (3 ≤ page) then (acc2, page + 1)
    else walletPageLoop get nowMs fuel (page + 1) cursor2 acc2

/-- server.js lines 280-341: `fetchWalletActivities` against a page
oracle. -/
def fetchWalletActivities (get : Option String → List WalletTx × Option String) (nowMs : Int) :
    List RawEvent × Nat :=
  walletPageLoop get nowMs 20 0 none []

/-- The cursor the wallet loop passes to its `n`-th page request. -/
def walletCursorTrace (get : Option String → List WalletTx × Option String) :
    Nat → Option String
  | 0 => none
  | n + 1 => normCursor (get (walletCursorTrace get n)).2

theorem contractPageLoop_stop (get : Option String → List RawEvent × Option String)
    (contract : String) (N : Nat)
    (hshort : ((get (contractCursorTrace get N)).1).length < 100) :
    ∀ fuel page cursor acc, page ≤ N → cursor = contractCursorTrace get page →
      (contractPageLoop get contract fuel page cursor acc).2 ≤ N + 1 := by
  intro fuel
  induction fuel with
  | zero =>
    intro page cursor acc hpage _
    simp only [contractPageLoop]
    omega
  | succ fuel ih =>
    intro page cursor acc hpage hcur
    simp only [contractPageLoop]
    split
    · simp only
      omega
    · next hcond =>
      rcases Nat.eq_or_lt_of_le hpage with heq | hlt
      · exfalso
        apply hcond
        right
        rw [hcur, heq]
        exact hshort
      · exact ih (page + 1) _ _ hlt (by rw [hcur]; rfl)

theorem walletPageLoop_stop (get : Option String → List WalletTx × Option String)
    (nowMs : Int) (N : Nat)
    (hshort : ((get (walletCursorTrace get N)).1).length < 1000) :
    ∀ fuel page cursor acc, page ≤ N → cursor = walletCursorTrace get page →
      (walletPageLoop get nowMs fuel page cursor acc).2 ≤ N + 1 := by
  intro fuel
  induction fuel with
  | zero =>
    intro page cursor acc hpage _
    simp only [walletPageLoop]
    omega
  | succ fuel ih =>
    intro page cursor acc hpage hcur
    simp only [walletPageLoop]
    split
    · simp only
      omega
    · next hcond1 =>
      split
      · simp only
        omega
      · split
        · simp only
          omega
        · rcases Nat.eq_or_lt_of_le hpage with heq | hlt
          · exfalso
            apply hcond1
            right
            rw [hcur, heq]
            exact hshort
          · exact ih (page + 1) _ _ hlt (by rw [hcur]; rfl)

/-- Claim C8: in both paginated retrieval shapes, if the page-`N` request
returns fewer rows than the page size (100 per contract, 1000 per wallet),
retrieval stops after that page — at most `N + 1` page requests are ever
issued, whatever further pages the upstream oracle could serve. -/
theorem pagination_stops_on_short_page :
    (∀ (get : Option String → List RawEvent × Option String) (contract : String) (N : Nat),
      N < 40 → ((get (contractCursorTrace get N)).1).length < 100 →
      (fetchActivitiesForContract get contract).2 ≤ N + 1) ∧
    (∀ (get : Option String → List WalletTx × Option String) (nowMs : Int) (N : Nat),
      N < 20 → ((get (walletCursorTrace get N)).1).length < 1000 →
      (fetchWalletActivities get nowMs).2 ≤ N + 1) := by
  constructor
  · intro get contract N _ hshort
    exact contractPageLoop_stop get contract N hshort 40 0 none [] (Nat.zero_le N) rfl
  · intro get nowMs N _ hshort
    exact walletPageLoop_stop get nowMs N hshort 20 0 none [] (Nat.zero_le N) rfl

/-- A page oracle that always returns an empty final page. -/
def getEmptyContract : Option String → List RawEvent × Option String := fun _ => ([], none)

/-- A wallet page oracle that always returns an empty final page. -/
def getEmptyWallet : Option String → List WalletTx × Option String := fun _ => ([], none)

/-- Witness for `pagination_stops_on_short_page` on concrete short-page
oracles. -/
theorem pagination_stops_on_short_page_witness :
    (fetchActivitiesForContract getEmptyContract addrA).2 ≤ 1 ∧
      (fetchWalletActivities getEmptyWallet 0).2 ≤ 1 :=
  ⟨pagination_stops_on_short_page.1 getEmptyContract addrA 0 (by decide) (by decide),
    pagination_stops_on_short_page.2 getEmptyWallet 0 0 (by decide) (by decide)⟩

end Timeline
